import Mathlib

/-!
Verification of the coordination core of the multi-claude-coordinator
repository (`src/coordinator-core.js`, worker side in `src/welcome-guide.js`,
configuration loading in `src/config-manager.js`).

The shared JSON document `system-state.json` is embedded as `SystemState`.
JavaScript objects used as string-keyed maps (`active_workers`, `file_locks`,
`dependencies`) are embedded as insertion-ordered association lists, which is
exactly how `Object.entries` / `Object.values` iterate them; the helper
functions `jsGet`, `jsSet`, `jsDelete` mirror property read, property
assignment and the `delete` operator on such objects.

Each coordination operation loads the committed state, mutates a copy and
saves it at the end (`loadSystemState` / `saveSystemState`); an exception
thrown before the save leaves the committed state unchanged.  Operations are
therefore embedded as functions from the committed state to the committed
state, where the thrown-exception case returns the input state unchanged
(paired with an `Except`/`Option` error), and polling loops are given their
sequential semantics: with no concurrent writer the committed state does not
change between polls, so a wait on a lock held by another worker can only
exhaust its timeout.
-/

namespace Coord

/-- Property read `m[k]` on a JS object embedded as an association list:
the value of the first (on an object: the only) binding of `k`. -/
def jsGet : List (String × α) → String → Option α
  | [], _ => none
  | p :: m, k => if p.1 == k then some p.2 else jsGet m k

/-- Property assignment `m[k] = v`: replaces the binding in place when the
key is present (JS keeps the original key position), appends otherwise. -/
def jsSet : List (String × α) → String → α → List (String × α)
  | [], k, v => [(k, v)]
  | p :: m, k, v => if p.1 == k then (k, v) :: m else p :: jsSet m k v

/-- `delete m[k]` on a JS object. -/
def jsDelete (m : List (String × α)) (k : String) : List (String × α) :=
  m.filter (fun p => p.1 != k)

/-- `progress` sub-record of a worker record (`coordinator-core.js`,
`registerWorker`). -/
structure Progress where
  total_tasks : Nat
  completed_tasks : Nat
  current_task : Option String
  deriving Repr, DecidableEq

/-- A worker record stored in `active_workers`
(`coordinator-core.js`, `registerWorker`).  Timestamps are Nat-encoded
epoch milliseconds. -/
structure WorkerInfo where
  group : String
  status : String
  started_at : Nat
  last_heartbeat : Nat
  current_files : List String
  progress : Progress
  deriving Repr, DecidableEq

/-- A group entry of the `dependencies` configuration
(`coordinator-core.js`, `getDefaultDependencies` shows the shape).
`blocked_by` is an `Option` because the worker-side dependency check
distinguishes a missing `blocked_by` property from an empty list. -/
structure GroupConfig where
  name : String
  priority : Nat
  blocks : List String
  blocked_by : Option (List String)
  files : List String
  deriving Repr, DecidableEq

/-- The `task_progress` section of the shared state. -/
structure TaskProgress where
  total_groups : Nat
  completed_groups : Nat
  active_groups : Nat
  deriving Repr, DecidableEq

/-- The shared coordination document `system-state.json`
(`coordinator-core.js`, `initializeSystem`).  `system_info` and `messages`
carry no coordination state used by the operations below and are omitted. -/
structure SystemState where
  active_workers : List (String × WorkerInfo)
  file_locks : List (String × String)
  dependencies : List (String × GroupConfig)
  task_progress : TaskProgress
  deriving Repr, DecidableEq

/-- Result of `acquireFileLock`: `{success: true}` or
`{success: false, lockedBy}`. -/
inductive AcquireResult where
  | granted : AcquireResult
  | heldBy (other : String) : AcquireResult
  deriving Repr, DecidableEq

/-- `CoordinatorCore.acquireFileLock` (coordinator-core.js:258-274): if the
file is locked by a different worker, fail with the current holder and leave
the state unchanged; otherwise write the lock and save. -/
def acquireFileLock (s : SystemState) (workerId filePath : String) :
    AcquireResult × SystemState :=
  match jsGet s.file_locks filePath with
  | some owner =>
    if owner != workerId then
      (AcquireResult.heldBy owner, s)
    else
      (AcquireResult.granted,
        { s with file_locks := jsSet s.file_locks filePath workerId })
  | none =>
    (AcquireResult.granted,
      { s with file_locks := jsSet s.file_locks filePath workerId })

/-- `CoordinatorCore.releaseFileLock` (coordinator-core.js:279-290): delete
the lock only when held by the releasing worker. -/
def releaseFileLock (s : SystemState) (workerId filePath : String) :
    SystemState :=
  if jsGet s.file_locks filePath = some workerId then
    { s with file_locks := jsDelete s.file_locks filePath }
  else s

/-- `CoordinatorCore.registerWorker` (coordinator-core.js:202-233).  The
duplicate check throws before any save, so the committed state is returned
unchanged in the error case. -/
def registerWorker (s : SystemState) (workerId groupId : String) (now : Nat) :
    SystemState × Except String WorkerInfo :=
  match jsGet s.active_workers workerId with
  | some _ => (s, Except.error ("Worker " ++ workerId ++ " already registered"))
  | none =>
    let w : WorkerInfo :=
      { group := groupId
        status := "initializing"
        started_at := now
        last_heartbeat := now
        current_files := []
        progress := { total_tasks := 0, completed_tasks := 0, current_task := none } }
    ({ s with
        active_workers := jsSet s.active_workers workerId w
        task_progress :=
          { s.task_progress with active_groups := s.task_progress.active_groups + 1 } },
     Except.ok w)

/-- `CoordinatorCore.updateWorkerStatus` (coordinator-core.js:238-253)
specialised to a status update: `Object.assign` of `{status}` plus a
refreshed `last_heartbeat`; throws (state unchanged) when the id is absent. -/
def updateWorkerStatus (s : SystemState) (workerId newStatus : String)
    (now : Nat) : Except String SystemState :=
  match jsGet s.active_workers workerId with
  | none => Except.error ("Worker " ++ workerId ++ " not found")
  | some w =>
    Except.ok
      { s with
          active_workers := jsSet s.active_workers workerId
            { w with status := newStatus, last_heartbeat := now } }

/-- Result shape of the dependency checks. -/
structure DepCheck where
  canProceed : Bool
  blockers : List String
  deriving Repr, DecidableEq

/-- `CoordinatorCore.checkDependencies` (coordinator-core.js:294-317): for
each group in `blocked_by || []`, `Object.values(active_workers).find` picks
the FIRST worker of that group; the group is a blocker unless that first
worker exists and is `completed`. -/
def checkDependencies (s : SystemState) (groupId : String) : DepCheck :=
  match jsGet s.dependencies groupId with
  | none => { canProceed := true, blockers := [] }
  | some cfg =>
    let blockers := (cfg.blocked_by.getD []).filter (fun bg =>
      match s.active_workers.find? (fun p => p.2.group == bg) with
      | none => true
      | some p => p.2.status != "completed")
    { canProceed := blockers.isEmpty, blockers := blockers }

/-- `WorkerCore.checkDependencies` (welcome-guide.js:525-549): identical to
the coordinator version except that a present-but-missing `blocked_by`
property short-circuits to `canProceed: true`. -/
def workerCheckDependencies (s : SystemState) (groupId : String) : DepCheck :=
  match jsGet s.dependencies groupId with
  | none => { canProceed := true, blockers := [] }
  | some cfg =>
    match cfg.blocked_by with
    | none => { canProceed := true, blockers := [] }
    | some bbs =>
      let blockers := bbs.filter (fun bg =>
        match s.active_workers.find? (fun p => p.2.group == bg) with
        | none => true
        | some p => p.2.status != "completed")
      { canProceed := blockers.isEmpty, blockers := blockers }

/-- The fresh document built by `CoordinatorCore.initializeSystem`
(coordinator-core.js:43-70): empty workers, empty locks, freshly loaded
dependencies, zeroed task progress. -/
def initialState (deps : List (String × GroupConfig)) : SystemState :=
  { active_workers := []
    file_locks := []
    dependencies := deps
    task_progress := { total_groups := 0, completed_groups := 0, active_groups := 0 } }

/-- `CoordinatorCore.initializeSystem` called while a committed state `prev`
already exists: the function never reads the existing document and
unconditionally saves the fresh one (coordinator-core.js:43-70; `start` at
coordinator-core.js:135-172 calls it on every startup). -/
def initializeSystem (prev : SystemState) (deps : List (String × GroupConfig)) :
    SystemState :=
  let _ := prev
  initialState deps

/-- `CoordinatorCore.loadDependencies` (coordinator-core.js:75-89): when a
readable project config exists, return its `groups || {}` untouched;
otherwise fall back to the built-in defaults.  No validation of any kind is
performed on the groups. -/
def loadDependencies (configGroups : Option (List (String × GroupConfig)))
    (defaults : List (String × GroupConfig)) : List (String × GroupConfig) :=
  match configGroups with
  | some groups => groups
  | none => defaults

/-- A project configuration document as seen by
`ConfigManager.validateAndMigrateConfig` (config-manager.js:228-240).
`project` and `rules` only matter through their presence. -/
structure ProjectConfig where
  hasProject : Bool
  groups : Option (List (String × GroupConfig))
  version : Option String
  hasRules : Bool
  deriving Repr, DecidableEq

/-- `ConfigManager.migrateToV1` (config-manager.js:242-260): stamps the
version and adds a default `rules` section when missing. -/
def migrateToV1 (c : ProjectConfig) : ProjectConfig :=
  { c with version := some "1.0.0", hasRules := true }

/-- `ConfigManager.validateAndMigrateConfig` (config-manager.js:228-240):
throws only when `project` or `groups` is missing; otherwise migrates old
versions and returns the config.  There is no inspection of `blocked_by`. -/
def validateAndMigrateConfig (c : ProjectConfig) : Except String ProjectConfig :=
  if !c.hasProject || c.groups.isNone then
    Except.error "Invalid configuration structure"
  else if c.version.isNone || c.version.getD "" < "1.0.0" then
    Except.ok (migrateToV1 c)
  else
    Except.ok c

/-- `CoordinatorCore.checkWorkerHealth` (coordinator-core.js:380-406): one
liveness sweep.  First collect every worker whose heartbeat lag exceeds
`staleTimeout` (in JS, `now - lastHeartbeat > staleWorkerTimeout`; the Nat
truncated subtraction agrees with the JS comparison because a negative lag
never exceeds a non-negative timeout), then mark each of them `stale`
through `updateWorkerStatus`; a throw there propagates out of the sweep. -/
def checkWorkerHealth (s : SystemState) (now staleTimeout : Nat) :
    Except String SystemState :=
  let staleWorkers :=
    (s.active_workers.filter
      (fun p => staleTimeout < now - p.2.last_heartbeat)).map (·.1)
  staleWorkers.foldlM (fun st wid => updateWorkerStatus st wid "stale" now) s

/-- Result of `CoordinatorCore.removeWorker`. -/
structure RemoveResult where
  success : Bool
  releasedFiles : List String
  error : Option String
  deriving Repr, DecidableEq

/-- `CoordinatorCore.removeWorker` (coordinator-core.js:453-492): fail
(state unchanged) when the id is unknown; otherwise delete every lock entry
held by the worker — collecting the released file names in `Object.entries`
order — delete the record, decrement `active_groups` (floored at 0), and
save. -/
def removeWorker (s : SystemState) (workerId : String) :
    RemoveResult × SystemState :=
  match jsGet s.active_workers workerId with
  | none => ({ success := false, releasedFiles := [], error := some "Worker not found" }, s)
  | some _ =>
    let releasedFiles := (s.file_locks.filter (fun p => p.2 == workerId)).map (·.1)
    let locks := s.file_locks.filter (fun p => p.2 != workerId)
    let tp := s.task_progress
    let tp := if 0 < tp.active_groups then
        { tp with active_groups := tp.active_groups - 1 }
      else tp
    ({ success := true, releasedFiles := releasedFiles, error := none },
     { s with
        active_workers := jsDelete s.active_workers workerId
        file_locks := locks
        task_progress := tp })

/-- Number of tasks `WorkerCore.generateTasks` produces for a group
(welcome-guide.js:797-852): the built-in task table keyed by group id, with
a single custom task as the fallback; `getTaskCount` is its length. -/
def getTaskCount (groupId : String) : Nat :=
  if groupId == "GRUP1_TYPESCRIPT" then 2
  else if groupId == "GRUP2_ESLINT" then 1
  else if groupId == "GRUP3_BUNDLE" then 2
  else 1

/-- `WorkerCore.registerWithCoordinator` (welcome-guide.js:450-479): throws
(state unchanged) only when the group configuration is missing; otherwise
assigns a brand-new record at the worker id — overwriting whatever was
there, with no duplicate check — and increments
`task_progress.active_groups`. -/
def registerWithCoordinator (s : SystemState) (workerId groupId : String)
    (now : Nat) : SystemState × Except String Unit :=
  match jsGet s.dependencies groupId with
  | none => (s, Except.error ("Group configuration not found: " ++ groupId))
  | some _ =>
    let w : WorkerInfo :=
      { group := groupId
        status := "initializing"
        started_at := now
        last_heartbeat := now
        current_files := []
        progress :=
          { total_tasks := getTaskCount groupId
            completed_tasks := 0
            current_task := none } }
    ({ s with
        active_workers := jsSet s.active_workers workerId w
        task_progress :=
          { s.task_progress with active_groups := s.task_progress.active_groups + 1 } },
     Except.ok ())

/-- `WorkerCore.waitForFileAvailability` (welcome-guide.js:689-707) under
sequential semantics: each poll re-reads the committed state, which no other
call is changing, so the wait returns at the first poll when the lock is
free or self-held, and otherwise every poll sees the same foreign holder
until `maxWaitTime` elapses and the timeout error is thrown. -/
def waitForFileAvailability (committed : SystemState) (workerId file : String) :
    Except String Unit :=
  match jsGet committed.file_locks file with
  | none => Except.ok ()
  | some owner =>
    if owner == workerId then Except.ok ()
    else Except.error ("Timeout waiting for file: " ++ file)

/-- The `for (const file of files)` loop of `WorkerCore.acquireFileLocks`
(welcome-guide.js:650-670): `localLocks` is the `file_locks` of the state
copy loaded at entry, `acquired` the `this.acquiredLocks` pushes.  A file
locked by another worker in the local copy sends the loop into
`waitForFileAvailability` against the committed state, whose timeout error
aborts the whole call. -/
def acquireLocksLoop (committed : SystemState) (workerId : String)
    (files : List String) (localLocks : List (String × String))
    (acquired : List String) :
    Except String (List (String × String) × List String) :=
  match files with
  | [] => Except.ok (localLocks, acquired)
  | f :: rest =>
    let wait : Except String Unit :=
      match jsGet localLocks f with
      | some owner =>
        if owner != workerId then waitForFileAvailability committed workerId f
        else Except.ok ()
      | none => Except.ok ()
    match wait with
    | Except.error e => Except.error e
    | Except.ok _ =>
      acquireLocksLoop committed workerId rest (jsSet localLocks f workerId)
        (acquired ++ [f])

/-- `WorkerCore.acquireFileLocks` (welcome-guide.js:650-670): the state copy
is saved only after the loop finishes, so a timeout thrown mid-loop leaves
the committed state exactly as it was; on success all requested locks are
committed at once.  The second component is the error, `none` on success. -/
def acquireFileLocks (s : SystemState) (workerId : String)
    (files : List String) : SystemState × Option String :=
  match acquireLocksLoop s workerId files s.file_locks [] with
  | Except.error e => (s, some e)
  | Except.ok (locks, _) => ({ s with file_locks := locks }, none)

/-- `WorkerCore.releaseFileLocks` (welcome-guide.js:672-687): one state
load, delete each listed lock that is self-held, one save. -/
def releaseFileLocks (s : SystemState) (workerId : String)
    (files : List String) : SystemState :=
  { s with
      file_locks := files.foldl (fun locks f =>
        if jsGet locks f = some workerId then jsDelete locks f else locks)
        s.file_locks }

/-- Lock-map well-formedness: a JS object cannot bind the same key twice, so
every state read from `system-state.json` has pairwise-distinct lock keys —
i.e. at most one recorded holder per resource. -/
def locksWellFormed (s : SystemState) : Prop :=
  (s.file_locks.map Prod.fst).Nodup

/-- A sequence of committed `acquireFileLock` calls, each running against
the state committed by the previous one. -/
def applyAcquires (s : SystemState) (ops : List (String × String)) : SystemState :=
  ops.foldl (fun st op => (acquireFileLock st op.1 op.2).2) s

/-- The condition the dependency checks actually test for a blocking group
`b`: the FIRST worker of `b` in `active_workers` order exists and has status
`completed` (`Object.values(...).find` in both checkDependencies copies). -/
def firstWorkerCompleted (s : SystemState) (b : String) : Bool :=
  match s.active_workers.find? (fun p => p.2.group == b) with
  | none => false
  | some p => p.2.status == "completed"

/-! ### Concrete fixtures

A small committed state used to evaluate the operations on explicit inputs:
two workers that both belong to group `A` — `w1` registered first and still
`working`, `w2` registered second and `completed` — and group `B` blocked by
`A`. -/

/-- A worker of group `A` that is still working. -/
def wWorking : WorkerInfo :=
  { group := "A"
    status := "working"
    started_at := 0
    last_heartbeat := 0
    current_files := []
    progress := { total_tasks := 0, completed_tasks := 0, current_task := none } }

/-- A worker of group `A` that has completed. -/
def wCompleted : WorkerInfo := { wWorking with status := "completed" }

/-- Group `A`: no blockers. -/
def cfgGroupA : GroupConfig :=
  { name := "Group A", priority := 1, blocks := ["B"], blocked_by := some []
    files := [] }

/-- Group `B`: blocked by `A`. -/
def cfgGroupB : GroupConfig :=
  { name := "Group B", priority := 2, blocks := [], blocked_by := some ["A"]
    files := [] }

/-- The committed state of the fixture. -/
def stateTwoWorkers : SystemState :=
  { active_workers := [("w1", wWorking), ("w2", wCompleted)]
    file_locks := [("f.ts", "w1"), ("g.ts", "w2")]
    dependencies := [("A", cfgGroupA), ("B", cfgGroupB)]
    task_progress := { total_groups := 2, completed_groups := 0, active_groups := 2 } }

/-- The state a liveness sweep at time 100000 (timeout 60000) commits from
`stateTwoWorkers`: both workers lapsed, so both are marked `stale` with a
refreshed heartbeat; nothing else moves. -/
def sweptState : SystemState :=
  { stateTwoWorkers with
      active_workers :=
        [("w1", { wWorking with status := "stale", last_heartbeat := 100000 }),
         ("w2", { wCompleted with status := "stale", last_heartbeat := 100000 })] }

/-- A self-referential dependency graph: group `A` blocked by itself. -/
def cfgCyc : GroupConfig :=
  { name := "Cyclic", priority := 1, blocks := [], blocked_by := some ["A"]
    files := [] }

/-- The `groups` section of a cyclic project configuration. -/
def cycGroups : List (String × GroupConfig) := [("A", cfgCyc)]

/-- A complete project configuration whose dependency graph has a cycle. -/
def cycConfig : ProjectConfig :=
  { hasProject := true, groups := some cycGroups, version := none
    hasRules := false }

/-- The invariant relating the local state copy mutated by the acquisition
loop of `WorkerCore.acquireFileLocks` to the committed state it was loaded
from: the copy differs only at self-acquired entries whose committed lock
was free or already self-held when the loop passed them. -/
def loopInv (committed : SystemState) (h : String)
    (localLocks : List (String × String)) : Prop :=
  ∀ g, jsGet localLocks g = jsGet committed.file_locks g ∨
    (jsGet localLocks g = some h ∧
      (jsGet committed.file_locks g = none ∨
        jsGet committed.file_locks g = some h))

/-! ### Association-list lemmas -/

theorem jsGet_nil (k : String) : jsGet ([] : List (String × α)) k = none := rfl

theorem jsGet_cons (p : String × α) (m : List (String × α)) (k : String) :
    jsGet (p :: m) k = if p.1 = k then some p.2 else jsGet m k := by
  simp [jsGet]

theorem jsGet_jsSet (m : List (String × α)) (k k' : String) (v : α) :
    jsGet (jsSet m k v) k' = if k' = k then some v else jsGet m k' := by
  induction m with
  | nil =>
    rcases eq_or_ne k' k with h | h
    · subst h
      simp [jsSet, jsGet_cons]
    · simp [jsSet, jsGet_cons, Ne.symm h, h]
  | cons a tl ih =>
    by_cases hak : a.1 = k
    · subst hak
      simp only [jsSet, beq_self_eq_true, if_true]
      rcases eq_or_ne k' a.1 with h | h
      · subst h
        simp [jsGet_cons]
      · simp [jsGet_cons, h, Ne.symm h]
    · have hb : (a.1 == k) = false := beq_eq_false_iff_ne.mpr hak
      simp only [jsSet, hb, Bool.false_eq_true, if_false]
      rcases eq_or_ne k' k with h | h
      · subst h
        simp [jsGet_cons, hak, ih]
      · simp [jsGet_cons, ih, h]

theorem jsGet_eq_none_iff (m : List (String × α)) (k : String) :
    jsGet m k = none ↔ k ∉ m.map Prod.fst := by
  induction m with
  | nil => simp [jsGet_nil]
  | cons a tl ih =>
    rcases eq_or_ne a.1 k with h | h
    · simp [jsGet_cons, h]
    · simp [jsGet_cons, h, ih, Ne.symm h]

theorem jsGet_mem {m : List (String × α)} {k : String} {v : α}
    (h : jsGet m k = some v) : (k, v) ∈ m := by
  induction m with
  | nil => simp [jsGet_nil] at h
  | cons a tl ih =>
    obtain ⟨a1, a2⟩ := a
    by_cases hk : a1 = k
    · subst hk
      rw [jsGet_cons, if_pos rfl] at h
      injection h with h
      subst h
      exact List.mem_cons_self _ _
    · rw [jsGet_cons, if_neg hk] at h
      exact List.mem_cons_of_mem _ (ih h)

theorem mem_jsGet_of_nodup {m : List (String × α)} {k : String} {v : α}
    (hnd : (m.map Prod.fst).Nodup) (hmem : (k, v) ∈ m) :
    jsGet m k = some v := by
  induction m with
  | nil => simp at hmem
  | cons a tl ih =>
    simp only [List.map_cons, List.nodup_cons] at hnd
    rcases List.mem_cons.mp hmem with h | h
    · subst h
      simp [jsGet_cons]
    · have hk : k ∈ tl.map Prod.fst := List.mem_map_of_mem Prod.fst h
      have : a.1 ≠ k := fun he => hnd.1 (he ▸ hk)
      simp [jsGet_cons, this, ih hnd.2 h]

theorem jsGet_filter (m : List (String × α)) (q : String × α → Bool) (k : String)
    (hnd : (m.map Prod.fst).Nodup) :
    jsGet (m.filter q) k =
      (jsGet m k).bind (fun v => if q (k, v) then some v else none) := by
  induction m with
  | nil => simp [jsGet_nil]
  | cons a tl ih =>
    obtain ⟨a1, a2⟩ := a
    simp only [List.map_cons, List.nodup_cons] at hnd
    rcases eq_or_ne a1 k with hk | hk
    · subst hk
    -- the unique binding of the key sits at the head
      have htl : jsGet tl a1 = none :=
        (jsGet_eq_none_iff tl a1).mpr hnd.1
      by_cases hq : q (a1, a2)
      · simp [List.filter_cons, hq, jsGet_cons]
      · simp only [List.filter_cons, hq, if_false, Bool.false_eq_true, jsGet_cons,
          if_true]
        rw [ih hnd.2, htl]
        simp [hq]
    · by_cases hq : q (a1, a2)
      · simp [List.filter_cons, hq, jsGet_cons, hk, ih hnd.2]
      · simp [List.filter_cons, hq, jsGet_cons, hk, ih hnd.2]

theorem mem_keys_jsSet (m : List (String × α)) (k x : String) (v : α) :
    x ∈ (jsSet m k v).map Prod.fst ↔ x ∈ m.map Prod.fst ∨ x = k := by
  induction m with
  | nil => simp [jsSet]
  | cons a tl ih =>
    by_cases hak : a.1 = k
    · subst hak
      simp only [jsSet, beq_self_eq_true, if_true, List.map_cons, List.mem_cons]
      tauto
    · have hb : (a.1 == k) = false := beq_eq_false_iff_ne.mpr hak
      simp only [jsSet, hb, Bool.false_eq_true, if_false, List.map_cons,
        List.mem_cons, ih]
      tauto

theorem nodup_keys_jsSet (m : List (String × α)) (k : String) (v : α)
    (hnd : (m.map Prod.fst).Nodup) : ((jsSet m k v).map Prod.fst).Nodup := by
  induction m with
  | nil => simp [jsSet]
  | cons a tl ih =>
    simp only [List.map_cons, List.nodup_cons] at hnd
    by_cases hak : a.1 = k
    · subst hak
      simp only [jsSet, beq_self_eq_true, if_true, List.map_cons,
        List.nodup_cons]
      exact ⟨hnd.1, hnd.2⟩
    · have hb : (a.1 == k) = false := beq_eq_false_iff_ne.mpr hak
      simp only [jsSet, hb, Bool.false_eq_true, if_false, List.map_cons,
        List.nodup_cons]
      refine ⟨fun hmem => ?_, ih hnd.2⟩
      rcases (mem_keys_jsSet tl k a.1 v).mp hmem with h | h
      · exact hnd.1 h
      · exact hak h

theorem jsGet_jsDelete_self (m : List (String × α)) (k : String) :
    jsGet (jsDelete m k) k = none := by
  rw [jsGet_eq_none_iff]
  intro hmem
  rcases List.mem_map.mp hmem with ⟨p, hp, hpk⟩
  rcases List.mem_filter.mp hp with ⟨_, hne⟩
  simp [bne_iff_ne, hpk] at hne

/-! ### Preservation helpers -/

theorem locksWellFormed_acquire (s : SystemState) (h r : String)
    (hwf : locksWellFormed s) :
    locksWellFormed (acquireFileLock s h r).2 := by
  rcases hg : jsGet s.file_locks r with _ | owner
  · simp only [acquireFileLock, hg]
    exact nodup_keys_jsSet _ _ _ hwf
  · simp only [acquireFileLock, hg]
    by_cases ho : owner = h
    · simp only [ho, bne_self_eq_false, Bool.false_eq_true, if_false]
      exact nodup_keys_jsSet _ _ _ hwf
    · simp only [bne_iff_ne, ne_eq, ho, not_false_eq_true, if_true]
      exact hwf

theorem locksWellFormed_applyAcquires (s : SystemState)
    (ops : List (String × String)) (hwf : locksWellFormed s) :
    locksWellFormed (applyAcquires s ops) := by
  induction ops generalizing s with
  | nil => exact hwf
  | cons op rest ih =>
    simp only [applyAcquires, List.foldl_cons]
    exact ih _ (locksWellFormed_acquire s op.1 op.2 hwf)

/-! ### Claim theorems -/

/-- C2: in every committed state the lock map binds each resource to at most
one holder (its keys are pairwise distinct, preserved by any sequence of
acquires), and while `h1` holds resource `r`, an acquire by a different
holder `h2` returns `HeldBy h1` and leaves the committed state unchanged. -/
theorem acquire_mutual_exclusion (s : SystemState) (ops : List (String × String))
    (r h1 h2 : String) (hwf : locksWellFormed s)
    (hheld : jsGet s.file_locks r = some h1) (hne : h2 ≠ h1) :
    locksWellFormed (applyAcquires s ops) ∧
    acquireFileLock s h2 r = (AcquireResult.heldBy h1, s) := by
  refine ⟨locksWellFormed_applyAcquires s ops hwf, ?_⟩
  have hb : (h1 != h2) = true := bne_iff_ne.mpr (Ne.symm hne)
  simp [acquireFileLock, hheld, hb]

/-- Witness for C2 at the fixture: `w1` holds `f.ts`, so `w2`'s acquire is
refused with `HeldBy "w1"` and the state is untouched; well-formedness
survives a further acquire sequence. -/
theorem acquire_mutual_exclusion_witness :
    locksWellFormed stateTwoWorkers ∧
    jsGet stateTwoWorkers.file_locks "f.ts" = some "w1" ∧
    ("w2" : String) ≠ "w1" ∧
    (locksWellFormed (applyAcquires stateTwoWorkers [("w2", "f.ts"), ("w3", "h.ts")]) ∧
      acquireFileLock stateTwoWorkers "w2" "f.ts" =
        (AcquireResult.heldBy "w1", stateTwoWorkers)) :=
  ⟨by unfold locksWellFormed; decide, by decide, by decide,
    acquire_mutual_exclusion stateTwoWorkers [("w2", "f.ts"), ("w3", "h.ts")]
      "f.ts" "w1" "w2" (by unfold locksWellFormed; decide) (by decide) (by decide)⟩

/-- C6 counterexample: calling the initializer on the fixture state — which
has registered workers and held locks — does NOT preserve it: the committed
result has empty `active_workers`, so re-initialization overwrites existing
state rather than keeping it. -/
theorem init_overwrite_counterexample :
    initializeSystem stateTwoWorkers [("A", cfgGroupA)] ≠ stateTwoWorkers ∧
    stateTwoWorkers.active_workers ≠ [] ∧
    (initializeSystem stateTwoWorkers [("A", cfgGroupA)]).active_workers = [] ∧
    (initializeSystem stateTwoWorkers [("A", cfgGroupA)]).file_locks = [] := by
  decide

/-- C6 (amended): `initializeSystem` is not idempotent — it never reads the
existing committed state and always commits the fresh document, erasing any
existing workers and leases; the result depends only on the loaded
dependency configuration. -/
theorem init_always_overwrites (prev prev' : SystemState)
    (deps : List (String × GroupConfig)) :
    initializeSystem prev deps = initialState deps ∧
    initializeSystem prev deps = initializeSystem prev' deps ∧
    (initializeSystem prev deps).active_workers = [] ∧
    (initializeSystem prev deps).file_locks = [] :=
  ⟨rfl, rfl, rfl, rfl⟩

/-- C8: registering an id already present among `active_workers` throws
`already registered` and commits nothing; registering a fresh id succeeds
and creates a record with status `initializing`. -/
theorem register_duplicate_rejected (s : SystemState) (id g : String) (now : Nat) :
    ((jsGet s.active_workers id).isSome →
      registerWorker s id g now =
        (s, Except.error ("Worker " ++ id ++ " already registered"))) ∧
    (jsGet s.active_workers id = none →
      ∃ w, (registerWorker s id g now).2 = Except.ok w ∧
        w.status = "initializing" ∧ w.group = g ∧
        jsGet (registerWorker s id g now).1.active_workers id = some w) := by
  constructor
  · intro hs
    rcases ho : jsGet s.active_workers id with _ | w
    · rw [ho] at hs
      simp at hs
    · simp [registerWorker, ho]
  · intro hn
    simp only [registerWorker, hn]
    exact ⟨_, rfl, rfl, rfl, by rw [jsGet_jsSet, if_pos rfl]⟩

/-- Witness for C8 at the fixture: re-registering `w1` fails with the
duplicate error and an unchanged state; registering the fresh id `w9`
succeeds with an `initializing` record. -/
theorem register_duplicate_rejected_witness :
    (jsGet stateTwoWorkers.active_workers "w1").isSome ∧
    registerWorker stateTwoWorkers "w1" "A" 5 =
      (stateTwoWorkers, Except.error ("Worker " ++ "w1" ++ " already registered")) ∧
    jsGet stateTwoWorkers.active_workers "w9" = none ∧
    (∃ w, (registerWorker stateTwoWorkers "w9" "B" 5).2 = Except.ok w ∧
      w.status = "initializing" ∧ w.group = "B" ∧
      jsGet (registerWorker stateTwoWorkers "w9" "B" 5).1.active_workers "w9" = some w) :=
  ⟨by decide,
    (register_duplicate_rejected stateTwoWorkers "w1" "A" 5).1 (by decide),
    by decide,
    (register_duplicate_rejected stateTwoWorkers "w9" "B" 5).2 (by decide)⟩

/-- C9: a group id with no entry in the loaded `dependencies` makes both the
coordinator-side and the worker-side dependency check return
`{canProceed: true, blockers: []}` — an unconfigured group is never
blocked. -/
theorem unknown_group_can_proceed (s : SystemState) (g : String)
    (h : jsGet s.dependencies g = none) :
    checkDependencies s g = { canProceed := true, blockers := [] } ∧
    workerCheckDependencies s g = { canProceed := true, blockers := [] } := by
  constructor
  · simp [checkDependencies, h]
  · simp [workerCheckDependencies, h]

/-- Witness for C9 at the fixture: group `ZZZ` has no configuration entry
and both checks report it free to proceed. -/
theorem unknown_group_can_proceed_witness :
    jsGet stateTwoWorkers.dependencies "ZZZ" = none ∧
    (checkDependencies stateTwoWorkers "ZZZ" = { canProceed := true, blockers := [] } ∧
      workerCheckDependencies stateTwoWorkers "ZZZ" = { canProceed := true, blockers := [] }) :=
  ⟨by decide, unknown_group_can_proceed stateTwoWorkers "ZZZ" (by decide)⟩

/-- C3 counterexample: in the fixture, group `A` does have a worker with
status `completed` (`w2`), so the claim demands `{ready: true, blockers: []}`
for `B`; but both dependency checks consult only the FIRST worker of group
`A` (`w1`, still `working`) and report `A` as a blocker. -/
theorem dependency_check_counterexample :
    jsGet stateTwoWorkers.active_workers "w2" = some wCompleted ∧
    wCompleted.group = "A" ∧ wCompleted.status = "completed" ∧
    jsGet stateTwoWorkers.dependencies "B" = some cfgGroupB ∧
    cfgGroupB.blocked_by = some ["A"] ∧
    checkDependencies stateTwoWorkers "B" = { canProceed := false, blockers := ["A"] } ∧
    workerCheckDependencies stateTwoWorkers "B" = { canProceed := false, blockers := ["A"] } := by
  decide

/-- C3 (amended): for a configured group `g`, the dependency check reports
ready exactly when for every id `b` in `g`'s `blockedBy` set the FIRST
worker in the state whose group is `b` exists and has status `completed`
(NOT when "at least one" worker of `b` has completed); every `b` failing
that test — in `blockedBy` order — is listed among the returned blockers,
and the worker-side check agrees with the coordinator-side one. -/
theorem dependency_check_first_worker (s : SystemState) (g : String)
    (cfg : GroupConfig) (hc : jsGet s.dependencies g = some cfg) :
    (checkDependencies s g).blockers =
      (cfg.blocked_by.getD []).filter (fun b => !(firstWorkerCompleted s b)) ∧
    ((checkDependencies s g).canProceed = true ↔
      ∀ b ∈ cfg.blocked_by.getD [], firstWorkerCompleted s b = true) ∧
    workerCheckDependencies s g = checkDependencies s g := by
  have hfilter : ∀ bbs : List String,
      bbs.filter (fun bg =>
        match s.active_workers.find? (fun p => p.2.group == bg) with
        | none => true
        | some p => p.2.status != "completed") =
      bbs.filter (fun b => !(firstWorkerCompleted s b)) := by
    intro bbs
    apply List.filter_congr
    intro b _
    unfold firstWorkerCompleted
    rcases hf : s.active_workers.find? (fun p => p.2.group == b) with _ | p
    · simp [hf]
    · simp [hf, bne]
  refine ⟨?_, ?_, ?_⟩
  · simp only [checkDependencies, hc, hfilter]
  · simp only [checkDependencies, hc, hfilter]
    rw [List.isEmpty_iff, List.filter_eq_nil_iff]
    constructor
    · intro hall b hb
      have := hall b hb
      simpa using this
    · intro hall b hb
      simp [hall b hb]
  · rcases hbb : cfg.blocked_by with _ | bbs
    · simp [checkDependencies, workerCheckDependencies, hc, hbb]
    · simp [checkDependencies, workerCheckDependencies, hc, hbb]

/-- Witness for C3 (amended) at the fixture: group `B`'s blockers are
exactly the `blockedBy` entries whose first worker has not completed, here
`["A"]`, and the two checks agree. -/
theorem dependency_check_first_worker_witness :
    jsGet stateTwoWorkers.dependencies "B" = some cfgGroupB ∧
    ((checkDependencies stateTwoWorkers "B").blockers =
      (cfgGroupB.blocked_by.getD []).filter
        (fun b => !(firstWorkerCompleted stateTwoWorkers b)) ∧
      ((checkDependencies stateTwoWorkers "B").canProceed = true ↔
        ∀ b ∈ cfgGroupB.blocked_by.getD [],
          firstWorkerCompleted stateTwoWorkers b = true) ∧
      workerCheckDependencies stateTwoWorkers "B" =
        checkDependencies stateTwoWorkers "B") :=
  ⟨by decide,
    dependency_check_first_worker stateTwoWorkers "B" cfgGroupB (by decide)⟩

/-- C7 counterexample: the cyclic configuration `cycConfig` — group `A`
blocked by itself — passes `validateAndMigrateConfig` unchanged and
`loadDependencies` returns its groups as-is: configuration load does not
fail on a cyclic `blockedBy` graph. -/
theorem cyclic_config_accepted_counterexample :
    jsGet cycGroups "A" = some cfgCyc ∧
    "A" ∈ cfgCyc.blocked_by.getD [] ∧
    validateAndMigrateConfig cycConfig = Except.ok (migrateToV1 cycConfig) ∧
    (migrateToV1 cycConfig).groups = some cycGroups ∧
    loadDependencies (some cycGroups) [] = cycGroups := by
  exact ⟨by decide, by decide, rfl, rfl, rfl⟩

/-- C7 (amended): configuration load performs no dependency-graph
validation at all: `loadDependencies` returns the configured groups
untouched, and `validateAndMigrateConfig` accepts every document that has
`project` and `groups` fields — regardless of self-referential or cyclic
`blockedBy` entries — returning it with its groups unchanged.  No
`CyclicDependency` error exists anywhere in the loading path. -/
theorem config_load_no_cycle_check (groups defaults : List (String × GroupConfig))
    (c : ProjectConfig) (hp : c.hasProject = true) (hg : c.groups.isSome) :
    loadDependencies (some groups) defaults = groups ∧
    ∃ c', validateAndMigrateConfig c = Except.ok c' ∧ c'.groups = c.groups := by
  refine ⟨rfl, ?_⟩
  have h1 : (!c.hasProject || c.groups.isNone) = false := by
    rw [hp]
    rcases hgs : c.groups with _ | gs
    · rw [hgs] at hg
      simp at hg
    · simp
  rw [validateAndMigrateConfig, h1]
  simp only [Bool.false_eq_true, if_false]
  split
  · exact ⟨migrateToV1 c, rfl, rfl⟩
  · exact ⟨c, rfl, rfl⟩

/-- Witness for C7 (amended): an old-format cyclic configuration (no
version field) is accepted through the migration path with its cyclic
groups intact. -/
theorem config_load_no_cycle_check_witness :
    loadDependencies (some cycGroups) [] = cycGroups ∧
    ∃ c', validateAndMigrateConfig cycConfig = Except.ok c' ∧
      c'.groups = cycConfig.groups :=
  config_load_no_cycle_check cycGroups [] cycConfig (by decide) (by decide)

theorem updateWorkerStatus_frame {s s1 : SystemState} {x st : String} {now : Nat}
    (hu : updateWorkerStatus s x st now = Except.ok s1) :
    s1.file_locks = s.file_locks ∧
    ∀ id, (jsGet s1.active_workers id).isSome = (jsGet s.active_workers id).isSome := by
  unfold updateWorkerStatus at hu
  rcases hw : jsGet s.active_workers x with _ | w
  · rw [hw] at hu
    cases hu
  · rw [hw] at hu
    injection hu with hu
    subst hu
    refine ⟨rfl, fun id => ?_⟩
    simp only [jsGet_jsSet]
    by_cases hix : id = x
    · subst hix
      simp [hw]
    · simp [hix]

theorem foldStale_frame (ids : List String) (s s' : SystemState) (now : Nat)
    (hok : ids.foldlM (fun st wid => updateWorkerStatus st wid "stale" now) s =
      Except.ok s') :
    s'.file_locks = s.file_locks ∧
    ∀ id, (jsGet s'.active_workers id).isSome = (jsGet s.active_workers id).isSome := by
  induction ids generalizing s with
  | nil =>
    simp only [List.foldlM_nil] at hok
    injection hok with hok
    subst hok
    exact ⟨rfl, fun _ => rfl⟩
  | cons x xs ih =>
    rw [List.foldlM_cons] at hok
    rcases hu : updateWorkerStatus s x "stale" now with e | s1
    · rw [hu] at hok
      simp only [bind, Except.bind] at hok
      cases hok
    · rw [hu] at hok
      simp only [bind, Except.bind] at hok
      have hstep := updateWorkerStatus_frame hu
      have hrest := ih s1 hok
      exact ⟨hrest.1.trans hstep.1, fun id => (hrest.2 id).trans (hstep.2 id)⟩

/-- C5: a liveness sweep is not destructive — whenever
`checkWorkerHealth` commits (any worker it found stale was marked through
`updateWorkerStatus`), the lock map of the committed state is exactly the
one before the sweep (no lease of a stale worker is released), and exactly
the same worker ids have records as before (no record is removed). -/
theorem stale_sweep_frame (s s' : SystemState) (now t : Nat)
    (hok : checkWorkerHealth s now t = Except.ok s') :
    s'.file_locks = s.file_locks ∧
    ∀ id, (jsGet s'.active_workers id).isSome = (jsGet s.active_workers id).isSome := by
  unfold checkWorkerHealth at hok
  exact foldStale_frame _ _ _ _ hok

/-- Witness for C5 at the fixture: at time 100000 with a 60000ms timeout
both fixture workers have lapsed; the sweep commits, actually marks `w1`
stale, yet the lock map is untouched and `w1`'s record still exists. -/
theorem stale_sweep_frame_witness :
    checkWorkerHealth stateTwoWorkers 100000 60000 = Except.ok sweptState ∧
    sweptState.file_locks = stateTwoWorkers.file_locks ∧
    (jsGet sweptState.active_workers "w1").isSome =
      (jsGet stateTwoWorkers.active_workers "w1").isSome ∧
    jsGet sweptState.active_workers "w1" =
      some { wWorking with status := "stale", last_heartbeat := 100000 } :=
  ⟨rfl,
    (stale_sweep_frame stateTwoWorkers sweptState 100000 60000 rfl).1,
    (stale_sweep_frame stateTwoWorkers sweptState 100000 60000 rfl).2 "w1",
    by decide⟩

/-- C4: removing a registered worker succeeds, returns exactly the names of
the resources whose lease holder was that worker, deletes the worker's
record, leaves no lease held by it, and afterwards an acquire of any
returned resource by any holder is Granted.  (Well-formedness of the lock
map — at most one binding per resource, automatic for a JS object — is the
standing invariant of every committed state.) -/
theorem remove_releases_all (s : SystemState) (wid : String) (w : WorkerInfo)
    (hreg : jsGet s.active_workers wid = some w) (hwf : locksWellFormed s) :
    (removeWorker s wid).1.success = true ∧
    (∀ f, f ∈ (removeWorker s wid).1.releasedFiles ↔
      jsGet s.file_locks f = some wid) ∧
    jsGet (removeWorker s wid).2.active_workers wid = none ∧
    (∀ f, jsGet (removeWorker s wid).2.file_locks f ≠ some wid) ∧
    (∀ f ∈ (removeWorker s wid).1.releasedFiles, ∀ h,
      (acquireFileLock (removeWorker s wid).2 h f).1 = AcquireResult.granted) := by
  have hmem_iff : ∀ f,
      f ∈ (s.file_locks.filter (fun p => p.2 == wid)).map Prod.fst ↔
        jsGet s.file_locks f = some wid := by
    intro f
    constructor
    · intro hf
      rcases List.mem_map.mp hf with ⟨p, hp, hpk⟩
      rcases List.mem_filter.mp hp with ⟨hpmem, hpv⟩
      have hv : p.2 = wid := by simpa using hpv
      have : jsGet s.file_locks p.1 = some p.2 :=
        mem_jsGet_of_nodup hwf (by rw [show (p.1, p.2) = p from rfl]; exact hpmem)
      rw [hpk, hv] at this
      exact this
    · intro hf
      have hmem : (f, wid) ∈ s.file_locks := jsGet_mem hf
      have : (f, wid) ∈ s.file_locks.filter (fun p => p.2 == wid) :=
        List.mem_filter.mpr ⟨hmem, by simp⟩
      exact List.mem_map.mpr ⟨(f, wid), this, rfl⟩
  have hfiltered : ∀ f, jsGet (s.file_locks.filter (fun p => p.2 != wid)) f ≠ some wid := by
    intro f hcon
    rw [jsGet_filter _ _ _ hwf] at hcon
    rcases hg : jsGet s.file_locks f with _ | v
    · rw [hg] at hcon
      cases hcon
    · rw [hg] at hcon
      simp only [Option.some_bind] at hcon
      by_cases hv : (v != wid) = true
      · rw [if_pos hv] at hcon
        injection hcon with hcon
        rw [hcon] at hv
        simp at hv
      · rw [if_neg hv] at hcon
        cases hcon
  have hnone : ∀ f, jsGet s.file_locks f = some wid →
      jsGet (s.file_locks.filter (fun p => p.2 != wid)) f = none := by
    intro f hf
    rw [jsGet_filter _ _ _ hwf, hf]
    simp
  simp only [removeWorker, hreg]
  refine ⟨by trivial, hmem_iff, jsGet_jsDelete_self _ _, hfiltered, ?_⟩
  intro f hf h
  have hheld := (hmem_iff f).mp hf
  have hn := hnone f hheld
  simp [acquireFileLock, hn]

/-- Witness for C4 at the fixture: removing `w1` succeeds, returns exactly
`["f.ts"]`, deletes the record, and `w2` (or anyone) can then acquire
`f.ts`. -/
theorem remove_releases_all_witness :
    jsGet stateTwoWorkers.active_workers "w1" = some wWorking ∧
    (removeWorker stateTwoWorkers "w1").1.releasedFiles = ["f.ts"] ∧
    ((removeWorker stateTwoWorkers "w1").1.success = true ∧
      ("f.ts" ∈ (removeWorker stateTwoWorkers "w1").1.releasedFiles ↔
        jsGet stateTwoWorkers.file_locks "f.ts" = some "w1") ∧
      jsGet (removeWorker stateTwoWorkers "w1").2.active_workers "w1" = none ∧
      jsGet (removeWorker stateTwoWorkers "w1").2.file_locks "f.ts" ≠ some "w1" ∧
      (acquireFileLock (removeWorker stateTwoWorkers "w1").2 "w2" "f.ts").1 =
        AcquireResult.granted) := by
  have hmain := remove_releases_all stateTwoWorkers "w1" wWorking (by decide)
    (by unfold locksWellFormed; decide)
  refine ⟨by decide, by decide,
    hmain.1, hmain.2.1 "f.ts", hmain.2.2.1, hmain.2.2.2.1 "f.ts",
    hmain.2.2.2.2 "f.ts" (by decide) "w2"⟩

theorem acquireLocksLoop_error (committed : SystemState) (h : String)
    (files : List String) (localLocks : List (String × String))
    (acq : List String) (hinv : loopInv committed h localLocks)
    (hun : ∃ f ∈ files, ∃ w, jsGet committed.file_locks f = some w ∧ w ≠ h) :
    ∃ e, acquireLocksLoop committed h files localLocks acq = Except.error e := by
  induction files generalizing localLocks acq with
  | nil =>
    simp at hun
  | cons f rest ih =>
    rcases hloc : jsGet localLocks f with _ | owner
    · -- locally unlocked, hence unlocked in the committed state too
      have havail : jsGet committed.file_locks f = none := by
        rcases hinv f with hi | ⟨hi, _⟩
        · rw [← hi, hloc]
        · rw [hloc] at hi
          cases hi
      have hun' : ∃ f' ∈ rest, ∃ w,
          jsGet committed.file_locks f' = some w ∧ w ≠ h := by
        rcases hun with ⟨f', hf', w, hw, hwne⟩
        rcases List.mem_cons.mp hf' with rfl | hmem
        · rw [havail] at hw
          cases hw
        · exact ⟨f', hmem, w, hw, hwne⟩
      have hinv' : loopInv committed h (jsSet localLocks f h) := by
        intro g
        by_cases hg : g = f
        · subst hg
          exact Or.inr ⟨by rw [jsGet_jsSet, if_pos rfl], Or.inl havail⟩
        · rw [jsGet_jsSet, if_neg hg]
          exact hinv g
      rcases ih (jsSet localLocks f h) (acq ++ [f]) hinv' hun' with ⟨e, he⟩
      refine ⟨e, ?_⟩
      simp only [acquireLocksLoop, hloc]
      exact he
    · by_cases how : owner = h
      · -- locally self-held, so the committed lock was free or self-held
        subst how
        have havail : jsGet committed.file_locks f = none ∨
            jsGet committed.file_locks f = some owner := by
          rcases hinv f with hi | ⟨_, hi⟩
          · exact Or.inr (by rw [← hi, hloc])
          · exact hi
        have hun' : ∃ f' ∈ rest, ∃ w,
            jsGet committed.file_locks f' = some w ∧ w ≠ owner := by
          rcases hun with ⟨f', hf', w, hw, hwne⟩
          rcases List.mem_cons.mp hf' with rfl | hmem
          · rcases havail with hv | hv
            · rw [hv] at hw
              cases hw
            · rw [hv] at hw
              injection hw with hw
              exact absurd hw.symm hwne
          · exact ⟨f', hmem, w, hw, hwne⟩
        have hinv' : loopInv committed owner (jsSet localLocks f owner) := by
          intro g
          by_cases hg : g = f
          · subst hg
            exact Or.inr ⟨by rw [jsGet_jsSet, if_pos rfl], havail⟩
          · rw [jsGet_jsSet, if_neg hg]
            exact hinv g
        rcases ih (jsSet localLocks f owner) (acq ++ [f]) hinv' hun' with ⟨e, he⟩
        refine ⟨e, ?_⟩
        simp only [acquireLocksLoop, hloc, bne_self_eq_false, Bool.false_eq_true,
          if_false]
        exact he
      · -- locally foreign-held, hence foreign-held in the committed state:
        -- the availability wait can only time out
        have hcom : jsGet committed.file_locks f = some owner := by
          rcases hinv f with hi | ⟨hi, _⟩
          · rw [← hi, hloc]
          · rw [hloc] at hi
            injection hi with hi
            exact absurd hi how
        refine ⟨"Timeout waiting for file: " ++ f, ?_⟩
        have hbne : (owner != h) = true := bne_iff_ne.mpr how
        have hbeq : (owner == h) = false := beq_eq_false_iff_ne.mpr how
        simp only [acquireLocksLoop, hloc, hbne, if_true,
          waitForFileAvailability, hcom, hbeq, Bool.false_eq_true, if_false]

/-- C1: when the batch acquisition finds any requested resource unavailable
(held in the committed state by a different worker), the whole call throws
before its single save, so the committed state is returned unchanged: no
resource touched by the call remains held by the caller beyond what it
already held — the all-or-nothing guarantee observed at the store. -/
theorem acquireAll_rolls_back (s : SystemState) (h : String)
    (files : List String)
    (hun : ∃ f ∈ files, ∃ w, jsGet s.file_locks f = some w ∧ w ≠ h) :
    (acquireFileLocks s h files).2.isSome ∧
    (acquireFileLocks s h files).1 = s ∧
    ∀ g, jsGet (acquireFileLocks s h files).1.file_locks g = jsGet s.file_locks g := by
  have hinv : loopInv s h s.file_locks := fun g => Or.inl rfl
  rcases acquireLocksLoop_error s h files s.file_locks [] hinv hun with ⟨e, he⟩
  rw [acquireFileLocks, he]
  exact ⟨rfl, rfl, fun _ => rfl⟩

/-- Witness for C1 at the fixture: `w3` requests `["a.ts", "f.ts"]` while
`f.ts` is held by `w1`; the call errors and the committed lock map — in
particular the free resource `a.ts` acquired earlier in the same loop — is
unchanged. -/
theorem acquireAll_rolls_back_witness :
    jsGet stateTwoWorkers.file_locks "f.ts" = some "w1" ∧ ("w1" : String) ≠ "w3" ∧
    ((acquireFileLocks stateTwoWorkers "w3" ["a.ts", "f.ts"]).2.isSome ∧
      (acquireFileLocks stateTwoWorkers "w3" ["a.ts", "f.ts"]).1 = stateTwoWorkers ∧
      jsGet (acquireFileLocks stateTwoWorkers "w3" ["a.ts", "f.ts"]).1.file_locks "a.ts" =
        jsGet stateTwoWorkers.file_locks "a.ts") := by
  have hmain := acquireAll_rolls_back stateTwoWorkers "w3" ["a.ts", "f.ts"]
    ⟨"f.ts", by decide, "w1", by decide, by decide⟩
  exact ⟨by decide, by decide, hmain.1, hmain.2.1, hmain.2.2 "a.ts"⟩

/-- C10: the worker process's own registration path has no duplicate-id
check: whenever the group is configured, registering an id that is already
present succeeds and overwrites the existing record with a fresh
`initializing` one (progress and current files reset), and increments
`task_progress.active_groups` again. -/
theorem worker_register_overwrites (s : SystemState) (id g : String)
    (now : Nat) (wOld : WorkerInfo) (cfg : GroupConfig)
    (hdup : jsGet s.active_workers id = some wOld)
    (hcfg : jsGet s.dependencies g = some cfg) :
    (registerWithCoordinator s id g now).2 = Except.ok () ∧
    jsGet (registerWithCoordinator s id g now).1.active_workers id = some
      { group := g, status := "initializing", started_at := now
        last_heartbeat := now, current_files := []
        progress := { total_tasks := getTaskCount g, completed_tasks := 0
                      current_task := none } } ∧
    (registerWithCoordinator s id g now).1.task_progress.active_groups =
      s.task_progress.active_groups + 1 := by
  simp only [registerWithCoordinator, hcfg]
  exact ⟨by trivial, by rw [jsGet_jsSet, if_pos rfl], by trivial⟩

/-- Witness for C10 at the fixture: `w1` is already registered (status
`working`), yet the worker-side registration under group `B` succeeds and
replaces the record with a fresh `initializing` one, bumping
`active_groups` from 2 to 3. -/
theorem worker_register_overwrites_witness :
    jsGet stateTwoWorkers.active_workers "w1" = some wWorking ∧
    jsGet stateTwoWorkers.dependencies "B" = some cfgGroupB ∧
    ((registerWithCoordinator stateTwoWorkers "w1" "B" 7).2 = Except.ok () ∧
      jsGet (registerWithCoordinator stateTwoWorkers "w1" "B" 7).1.active_workers "w1" =
        some { group := "B", status := "initializing", started_at := 7
               last_heartbeat := 7, current_files := []
               progress := { total_tasks := getTaskCount "B", completed_tasks := 0
                             current_task := none } } ∧
      (registerWithCoordinator stateTwoWorkers "w1" "B" 7).1.task_progress.active_groups =
        stateTwoWorkers.task_progress.active_groups + 1) :=
  ⟨by decide, by decide,
    worker_register_overwrites stateTwoWorkers "w1" "B" 7 wWorking cfgGroupB
      (by decide) (by decide)⟩

end Coord
